import Mathlib

/-!
# ChatGPT plugin of OrbisDB: prompt building, hooks and timer lifecycle

A shallow embedding of `src/server/plugins/chat-gpt/index.js`.

* JavaScript strings are lists of characters (`Str`), that is, well-formed strings.
  Every character the program inspects (`$`, `{`, `}`, word characters, the dot) is
  ASCII, so matching on code points and matching on UTF-16 code units find the same
  occurrences.
* JavaScript values are the data values a record or a query response is made of
  (`JSValue`).  A record is a plain object: its prototype is `Object.prototype`, whose
  members a property read reaches (`getMember`).
* The host (`global.indexingService`, `fetch`, `JSON.parse`) is a parameter (`Host`).
* Asynchronous methods are modelled by their result once awaited; a thrown
  exception is `Except.error`.
-/

namespace ChatGPTPlugin

/-- A JavaScript string. -/
abbrev Str := List Char

/-- The exceptions a method can end with. -/
inductive Thrown
  | networkError
  | parseError
  | typeError
deriving DecidableEq

/-! ## Numbers -/

/-- A JavaScript Number, given by what `Number::toString` is specified with: a
finite non-zero number is its sign, the decimal digits `d1 ... dk` of the shortest
numeral that denotes it, and the exponent `n`, its value being
`0.d1...dk * 10^n`.  The zeros `+0` and `-0` are one value: they have the same text
and the same truth value. -/
inductive JSNumber
  | nan
  | infinity (negative : Bool)
  | zero
  | finite (negative : Bool) (digits : List (Fin 10)) (n : Int)
deriving DecidableEq

/-- The character of a decimal digit. -/
def digitChar (d : Fin 10) : Char :=
  Char.ofNat (48 + d.val)

/-- The digits `d1 ... dk` with a decimal point after the first, for the scientific
form. -/
def mantissa : Str → Str
  | [] => []
  | [d] => [d]
  | d :: rest => d :: '.' :: rest

/-- The operation `Number::toString(x, 10)`: with `k` digits and exponent `n`, the
plain forms for `-5 ≤ n ≤ 21` (`n ≥ k`: the digits and `n - k` zeros; `0 < n < k`:
a decimal point after `n` digits; `n ≤ 0`: `0.`, `-n` zeros and the digits), the
scientific form with exponent `n - 1` otherwise. -/
def numberToString : JSNumber → Str
  | .nan => "NaN".toList
  | .infinity negative => if negative then "-Infinity".toList else "Infinity".toList
  | .zero => "0".toList
  | .finite negative digits n =>
    (if negative then ['-'] else []) ++
      (if -5 ≤ n ∧ n ≤ 21 then
        if (digits.length : Int) ≤ n then
          digits.map digitChar ++ List.replicate (n.toNat - digits.length) '0'
        else if 0 < n then
          (digits.map digitChar).take n.toNat ++ '.' :: (digits.map digitChar).drop n.toNat
        else '0' :: '.' :: (List.replicate (-n).toNat '0' ++ digits.map digitChar)
      else
        mantissa (digits.map digitChar) ++
          'e' :: (if n - 1 < 0 then '-' else '+') :: (toString (n - 1).natAbs).toList)

/-! ## Values -/

/-- JavaScript data values. -/
inductive JSValue
  | undefined
  | null
  | bool (b : Bool)
  | number (x : JSNumber)
  | string (s : Str)
  | array (xs : List JSValue)
  | object (fields : List (Str × JSValue))

/-- The own enumerable properties of a plain object, in enumeration order. -/
abbrev Record := List (Str × JSValue)

/-- ToBoolean: what `if (v)`, `v && w` and `v || w` test. -/
def truthy : JSValue → Bool
  | .undefined => false
  | .null => false
  | .bool b => b
  | .number .nan => false
  | .number .zero => false
  | .number _ => true
  | .string s => !s.isEmpty
  | .array _ => true
  | .object _ => true

/-- The own property `name` of an object, if it has one. -/
def ownProperty : Record → Str → Option JSValue
  | [], _ => none
  | (k, v) :: rest, name => if k = name then some v else ownProperty rest name

/-- The value of `v.name` for one of the property names `data`, `rows`, `content`,
`choices`, `message`, which no prototype, no primitive and no array carries: an
object yields its own property, every other value yields `undefined`. -/
def getProp (v : JSValue) (name : Str) : JSValue :=
  match v with
  | .object fields => (ownProperty fields name).getD .undefined
  | _ => .undefined

mutual
/-- ToString of a data value.  An array is joined with commas.  A plain object is
`[object Object]` through `Object.prototype.toString`, unless it has an own property
`toString`: that property is data, hence not callable, `valueOf` yields no
primitive, and the conversion throws a TypeError. -/
def toStr : JSValue → Except Thrown Str
  | .undefined => .ok "undefined".toList
  | .null => .ok "null".toList
  | .bool b => .ok (if b then "true".toList else "false".toList)
  | .number x => .ok (numberToString x)
  | .string s => .ok s
  | .array xs => joinElems xs
  | .object fields =>
    if (ownProperty fields "toString".toList).isSome then .error .typeError
    else .ok "[object Object]".toList
/-- The body of `Array.prototype.join(",")`: the elements are converted in order. -/
def joinElems : List JSValue → Except Thrown Str
  | [] => .ok []
  | [x] => elemStr x
  | x :: y :: rest =>
    match elemStr x with
    | .error e => .error e
    | .ok a =>
      match joinElems (y :: rest) with
      | .error e => .error e
      | .ok b => .ok (a ++ ',' :: b)
/-- The string one array element contributes to `join`: the empty string for
`undefined` and `null`, its ToString otherwise. -/
def elemStr : JSValue → Except Thrown Str
  | .undefined => .ok []
  | .null => .ok []
  | .bool b => .ok (if b then "true".toList else "false".toList)
  | .number x => .ok (numberToString x)
  | .string s => .ok s
  | .array xs => joinElems xs
  | .object fields =>
    if (ownProperty fields "toString".toList).isSome then .error .typeError
    else .ok "[object Object]".toList
end

/-! ## `JSON.stringify` -/

/-- A lowercase hexadecimal digit. -/
def hexDigit (n : Nat) : Char :=
  if n < 10 then Char.ofNat (48 + n) else Char.ofNat (87 + n)

/-- QuoteJSONString on one character: the two-character escapes, `\u00XX` for the
other control characters, the character itself otherwise. -/
def quoteChar (c : Char) : Str :=
  if c.toNat = 34 then [Char.ofNat 92, Char.ofNat 34]
  else if c.toNat = 92 then [Char.ofNat 92, Char.ofNat 92]
  else if c.toNat = 8 then [Char.ofNat 92, 'b']
  else if c.toNat = 9 then [Char.ofNat 92, 't']
  else if c.toNat = 10 then [Char.ofNat 92, 'n']
  else if c.toNat = 12 then [Char.ofNat 92, 'f']
  else if c.toNat = 13 then [Char.ofNat 92, 'r']
  else if c.toNat < 32 then
    [Char.ofNat 92, 'u', '0', '0', hexDigit (c.toNat / 16), hexDigit (c.toNat % 16)]
  else [c]

/-- QuoteJSONString. -/
def quoteJSONString (s : Str) : Str :=
  Char.ofNat 34 :: (s.flatMap quoteChar ++ [Char.ofNat 34])

/-- A number in JSON: `null` when it is not finite, its text otherwise. -/
def jsonNumber : JSNumber → Str
  | .nan => "null".toList
  | .infinity _ => "null".toList
  | x => numberToString x

mutual
/-- SerializeJSONProperty without indentation: `none` is the `undefined` that
`JSON.stringify(undefined)` returns. -/
def jsonStringify : JSValue → Option Str
  | .undefined => none
  | .null => some "null".toList
  | .bool b => some (if b then "true".toList else "false".toList)
  | .number x => some (jsonNumber x)
  | .string s => some (quoteJSONString s)
  | .array xs => some ('[' :: (jsonElems xs ++ [']']))
  | .object fields => some ('{' :: (jsonMembers fields false ++ ['}']))
/-- The elements of an array, comma separated; an `undefined` element is written `null`. -/
def jsonElems : List JSValue → Str
  | [] => []
  | [x] => (jsonStringify x).getD "null".toList
  | x :: y :: rest => (jsonStringify x).getD "null".toList ++ ',' :: jsonElems (y :: rest)
/-- The members of an object, comma separated; a member whose value is `undefined`
is left out.  `sep` tells whether a member has been written already. -/
def jsonMembers : List (Str × JSValue) → Bool → Str
  | [], _ => []
  | (k, v) :: rest, sep =>
    match jsonStringify v with
    | none => jsonMembers rest sep
    | some s => (if sep then [','] else []) ++ quoteJSONString k ++ ':' :: s ++ jsonMembers rest true
end

/-! ## Property reads on a record -/

/-- The function-valued members of `Object.prototype`. -/
inductive ProtoMethod
  | objectConstructor
  | protoToString
  | protoToLocaleString
  | protoValueOf
  | hasOwnProperty
  | isPrototypeOf
  | propertyIsEnumerable
  | defineGetter
  | defineSetter
  | lookupGetter
  | lookupSetter
deriving DecidableEq

/-- The member of `Object.prototype` that a name denotes, if any. -/
def protoMethod (name : Str) : Option ProtoMethod :=
  if name = "constructor".toList then some .objectConstructor
  else if name = "toString".toList then some .protoToString
  else if name = "toLocaleString".toList then some .protoToLocaleString
  else if name = "valueOf".toList then some .protoValueOf
  else if name = "hasOwnProperty".toList then some .hasOwnProperty
  else if name = "isPrototypeOf".toList then some .isPrototypeOf
  else if name = "propertyIsEnumerable".toList then some .propertyIsEnumerable
  else if name = "__defineGetter__".toList then some .defineGetter
  else if name = "__defineSetter__".toList then some .defineSetter
  else if name = "__lookupGetter__".toList then some .lookupGetter
  else if name = "__lookupSetter__".toList then some .lookupSetter
  else none

/-- The name of the prototype accessor. -/
def protoKey : Str := "__proto__".toList

/-- What a property read `content[variableName]` on a record yields: a data value,
a function of `Object.prototype`, or the object `Object.prototype` itself. -/
inductive Looked
  | data (v : JSValue)
  | method (m : ProtoMethod)
  | prototype

/-- The read `o[name]` on a plain object with the given own properties: the own
property if there is one, else the member of `Object.prototype` of that name, else
`undefined`. -/
def getMember (fields : Record) (name : Str) : Looked :=
  match ownProperty fields name with
  | some v => .data v
  | none =>
    if name = protoKey then .prototype
    else
      match protoMethod name with
      | some m => .method m
      | none => .data .undefined

/-- ToBoolean of what a read yields: functions and objects are truthy. -/
def Looked.truthy : Looked → Bool
  | .data v => ChatGPTPlugin.truthy v
  | .method _ => true
  | .prototype => true

/-- A function of `Object.prototype` called as a replacer, `this` being `undefined`
and the first argument the matched text: `Object(matched)` is a String object whose
string is `matched`; `toString` answers `[object Undefined]`; `isPrototypeOf` answers
`false` for an argument that is no object; the other functions start with
ToObject of `this` and throw a TypeError. -/
def callAsReplacer (m : ProtoMethod) (matched : Str) : Except Thrown Str :=
  match m with
  | .objectConstructor => .ok matched
  | .protoToString => .ok "[object Undefined]".toList
  | .isPrototypeOf => .ok "false".toList
  | _ => .error .typeError

/-! ## The regular expression `/\$\{([\w.]+)\}/g` -/

/-- The character class `[\w.]`. -/
def isWordOrDot (c : Char) : Bool :=
  c.isAlphanum || c == '_' || c == '.'

/-- One attempt of the regular expression at the start of the input: the captured
identifier (the longest run of `[\w.]`, which must be non-empty and followed by
`}`) and the input after the match. -/
def matchHere : Str → Option (Str × Str)
  | '$' :: '{' :: t =>
    match t.takeWhile isWordOrDot, t.dropWhile isWordOrDot with
    | [], _ => none
    | n :: ns, '}' :: rest => some (n :: ns, rest)
    | _, _ => none
  | _ => none

/-- The text `${name}`. -/
def placeholder (name : Str) : Str :=
  '$' :: '{' :: (name ++ ['}'])

/-- The scan of `matchAll`: at each position either a match, after which the scan
resumes behind it, or a step of one character.  `fuel` bounds the number of steps. -/
def matchAllAux : Nat → Str → List (Str × Str)
  | 0, _ => []
  | _ + 1, [] => []
  | fuel + 1, c :: t =>
    match matchHere (c :: t) with
    | some (name, rest) => (placeholder name, name) :: matchAllAux fuel rest
    | none => matchAllAux fuel t

/-- The array `[...prompt.matchAll(/\$\{([\w.]+)\}/g)]` as pairs `(match[0], match[1])`. -/
def matchAll (prompt : Str) : List (Str × Str) :=
  matchAllAux prompt.length prompt

/-! ## `String.prototype.replace` with a string pattern -/

/-- The text before and after the first occurrence of `pat` (StringIndexOf from 0). -/
def splitAtFirst (pat : Str) : Str → Option (Str × Str)
  | [] => if pat = [] then some ([], []) else none
  | c :: t =>
    if pat.isPrefixOf (c :: t) then some ([], (c :: t).drop pat.length)
    else match splitAtFirst pat t with
      | some (before, after) => some (c :: before, after)
      | none => none

/-- GetSubstitution for a string pattern (no captures): `$$` gives `$`, `$&` the
matched text, a dollar with a backtick the text before the match, a dollar with an
apostrophe the text after it; every other character, a `$` before a digit or `<`
included, is copied. -/
def getSubstitution (matched before after : Str) : Str → Str
  | [] => []
  | [c] => [c]
  | c :: d :: rest =>
    if c = '$' then
      if d = '$' then '$' :: getSubstitution matched before after rest
      else if d = '&' then matched ++ getSubstitution matched before after rest
      else if d = Char.ofNat 96 then before ++ getSubstitution matched before after rest
      else if d = Char.ofNat 39 then after ++ getSubstitution matched before after rest
      else c :: getSubstitution matched before after (d :: rest)
    else c :: getSubstitution matched before after (d :: rest)

/-- The replacement of the first occurrence of `pat` in `s` by the expansion of the
template `text`; without an occurrence `s` is returned. -/
def replaceWithText (s pat text : Str) : Str :=
  match splitAtFirst pat s with
  | none => s
  | some (before, after) => before ++ getSubstitution pat before after text ++ after

/-- The call `s.replace(pat, replacement)` for a string `pat`.  A replacement that
is not callable is converted to a string first, which can throw, and used as a
template.  A function is called when `pat` occurs, and the string of its result is
inserted as it is. -/
def stringReplace (s pat : Str) (replacement : Looked) : Except Thrown Str :=
  match replacement with
  | .data v =>
    match toStr v with
    | .error e => .error e
    | .ok text => .ok (replaceWithText s pat text)
  | .prototype => .ok (replaceWithText s pat "[object Object]".toList)
  | .method m =>
    match splitAtFirst pat s with
    | none => .ok s
    | some (before, after) =>
      match callAsReplacer m pat with
      | .error e => .error e
      | .ok text => .ok (before ++ text ++ after)

/-! ## The host -/

/-- What one call of `global.indexingService.database.query` does. -/
inductive QueryOutcome
  | throws
  | returns (response : JSValue)

/-- The parsed body of a response of the remote API and its status. -/
structure HttpResponse where
  ok : Bool
  body : Option JSValue

/-- What one call of `fetch` does. -/
inductive FetchOutcome
  | rejects
  | resolves (response : HttpResponse)

/-- The environment of a plugin instance. `query n` is the outcome of the `n`-th
query made while a prompt is built, `api` the answer of the remote API to a user
message, `jsonParse` is `JSON.parse` (`none` when it throws). -/
structure Host where
  query : Nat → QueryOutcome
  api : JSValue → FetchOutcome
  jsonParse : Str → Option JSValue

/-- The settings of a plugin instance that the methods read. -/
structure Plugin where
  prompt : Str
  field : Str
  is_json : Str

/-! ## `buildPrompt` -/

/-- The reserved variable name. -/
def queryResults : Str := "query.results".toList

/-- The `case "query.results"` branch: the value of `replacement` after the
`try`/`catch`. -/
def queryResultsReplacement : QueryOutcome → JSValue
  | .throws => .undefined
  | .returns response =>
    if truthy response && truthy (getProp response "data".toList) then
      let rows := getProp (getProp response "data".toList) "rows".toList
      match jsonStringify (if truthy rows then rows else .string []) with
      | some s => .string s
      | none => .undefined
    else .undefined

/-- The `default` branch: `(content && content[variableName]) || ""`; `none` is a
call without content. -/
def fieldReplacement (content : Option Record) (variableName : Str) : Looked :=
  match content with
  | none => .data (.string [])
  | some fields =>
    if (getMember fields variableName).truthy then getMember fields variableName
    else .data (.string [])

/-- The `switch` of the loop body: the replacement of a variable and the number of
host queries made so far. -/
def resolve (content : Option Record) (query : Nat → QueryOutcome) (calls : Nat)
    (variableName : Str) : Looked × Nat :=
  if variableName = queryResults then
    (.data (queryResultsReplacement (query calls)), calls + 1)
  else (fieldReplacement content variableName, calls)

/-- The `for` loop of `buildPrompt` over the remaining matches. -/
def buildPromptLoop (content : Option Record) (query : Nat → QueryOutcome) :
    List (Str × Str) → Str → Nat → Except Thrown (Str × Nat)
  | [], prompt, calls => .ok (prompt, calls)
  | (fullMatch, variableName) :: rest, prompt, calls =>
    match stringReplace prompt fullMatch (resolve content query calls variableName).1 with
    | .error e => .error e
    | .ok next =>
      buildPromptLoop content query rest next (resolve content query calls variableName).2

/-- The method `buildPrompt(prompt, content)`: the built prompt and the number of
queries sent to the host, or the exception thrown. -/
def buildPrompt (prompt : Str) (content : Option Record) (query : Nat → QueryOutcome) :
    Except Thrown (Str × Nat) :=
  buildPromptLoop content query (matchAll prompt) prompt 0

/-! ## Predicates on prompts -/

/-- The text contains a substring `${identifier}`, the identifier being one or
more word characters or dots. -/
def ContainsPlaceholder (s : Str) : Prop :=
  ∃ a name b, name ≠ [] ∧ (∀ c ∈ name, isWordOrDot c = true) ∧ s = a ++ placeholder name ++ b

/-- Some position of the text is the start of a match of the regular expression. -/
def hasPlaceholder : Str → Bool
  | [] => false
  | c :: t => (matchHere (c :: t)).isSome || hasPlaceholder t

/-! ## The model client -/

/-- One property access of the chain `data.choices[0].message.content`: reading a
property of `undefined` or `null` throws; an array or a string has an element `0`
and none of the other names of the chain. -/
def member (v : JSValue) (name : Str) : Except Thrown JSValue :=
  match v with
  | .undefined => .error .typeError
  | .null => .error .typeError
  | .object fields => .ok ((ownProperty fields name).getD .undefined)
  | .array xs => .ok (if name = "0".toList then xs.headD .undefined else .undefined)
  | .string s =>
    .ok (if name = "0".toList ∧ s ≠ [] then .string (s.take 1) else .undefined)
  | _ => .ok .undefined

/-- The method `fetchFromOpenAI(userMessage)` for the user message with the given
content: `undefined` on a non-success status, the content of the first choice
otherwise, parsed as JSON when the instance is in JSON mode. -/
def fetchFromOpenAI (p : Plugin) (h : Host) (content : JSValue) : Except Thrown JSValue :=
  match h.api content with
  | .rejects => .error .networkError
  | .resolves response =>
    if !response.ok then .ok .undefined
    else
      match response.body with
      | none => .error .parseError
      | some data =>
        match member data "choices".toList with
        | .error e => .error e
        | .ok choices =>
          match member choices "0".toList with
          | .error e => .error e
          | .ok first =>
            match member first "message".toList with
            | .error e => .error e
            | .ok message =>
              match member message "content".toList with
              | .error e => .error e
              | .ok answer =>
                if p.is_json = "yes".toList then
                  match toStr answer with
                  | .error e => .error e
                  | .ok text =>
                    match h.jsonParse text with
                    | some v => .ok v
                    | none => .error .parseError
                else .ok answer

/-! ## The periodic generator -/

/-- What one generation cycle did: the contents sent to the model client, the
values passed to the insert API of the host, and the exception the cycle ended
with, if any. -/
structure Cycle where
  modelCalls : List JSValue
  inserts : List JSValue
  thrown : Option Thrown

/-- The method `createStream()`.  An insertion that fails is caught and logged, so
its outcome does not show in the result. -/
def createStream (p : Plugin) (h : Host) : Cycle :=
  match buildPrompt p.prompt none h.query with
  | .error e => ⟨[], [], some e⟩
  | .ok parsedPrompt =>
    match fetchFromOpenAI p h (.string parsedPrompt.1) with
    | .error e => ⟨[.string parsedPrompt.1], [], some e⟩
    | .ok result =>
      if truthy result then ⟨[.string parsedPrompt.1], [result], none⟩
      else ⟨[.string parsedPrompt.1], [], none⟩

/-! ## The update hook -/

/-- An object of the store: its own properties and its prototype, `none` being
`Object.prototype` and `some v` the object or `null` that an assignment to
`__proto__` has put in its place. -/
structure HeapObject where
  fields : Record
  proto : Option JSValue

/-- A record as an object of the store. -/
def HeapObject.plain (fields : Record) : HeapObject :=
  ⟨fields, none⟩

/-- The assignment `o[key] = value` on own properties: an existing property is
overwritten in place, a new one is added at the end. -/
def assign : Record → Str → JSValue → Record
  | [], key, value => [(key, value)]
  | (k, v) :: rest, key, value =>
    if k = key then (k, value) :: rest else (k, v) :: assign rest key value

/-- The values the setter of `__proto__` accepts as a prototype: objects and `null`. -/
def isObjectOrNull : JSValue → Bool
  | .null => true
  | .array _ => true
  | .object _ => true
  | _ => false

/-- The assignment `o[key] = value` on an object of the store.  For the key
`__proto__` on an object that has no own property of that name and whose prototype
chain ends in `Object.prototype`, the assignment calls the setter of
`Object.prototype`: an object or `null` becomes the prototype, any other value is
ignored, and no own property is created. -/
def assignField (o : HeapObject) (key : Str) (value : JSValue) : HeapObject :=
  if key = protoKey ∧ (ownProperty o.fields key).isNone ∧ !(o.proto matches some .null) then
    if isObjectOrNull value then ⟨o.fields, some value⟩ else o
  else ⟨assign o.fields key value, o.proto⟩

/-- The store after `ref[key] = value`. -/
def setField (heap : List HeapObject) (ref : Nat) (key : Str) (value : JSValue) :
    List HeapObject :=
  heap.modify (fun o => assignField o key value) ref

/-- The method `query(content)` of the update hook, `content` being a reference
into a store of records: the store after the call and the reference returned.  The
object literal `{ ...content }` is a new plain object holding the own properties of
the record. -/
def query (p : Plugin) (h : Host) (heap : List Record) (content : Nat) :
    Except Thrown (List HeapObject × Nat) :=
  match buildPrompt p.prompt (some (heap.getD content [])) h.query with
  | .error e => .error e
  | .ok parsedPrompt =>
    match fetchFromOpenAI p h (.string parsedPrompt.1) with
    | .error e => .error e
    | .ok result =>
      let _content := heap.length
      let heap1 := heap.map HeapObject.plain ++ [HeapObject.plain (heap.getD content [])]
      .ok (setField heap1 _content p.field result, _content)

/-! ## The chat endpoint -/

/-- What `chatSubmit` did: the `data` property of the object it returned, or the
exception it ended with, and the contents sent to the model client. -/
structure ChatResult where
  data : Except Thrown JSValue
  modelCalls : List JSValue

/-- The method `chatSubmit(req, res)` for a request with the given `req.body`
(`undefined` when the request has no body). -/
def chatSubmit (p : Plugin) (h : Host) (body : JSValue) : ChatResult :=
  if !truthy body then ⟨.ok .null, []⟩
  else ⟨fetchFromOpenAI p h (getProp body "content".toList), [getProp body "content".toList]⟩

/-! ## The polling timer -/

/-- The value of `this.interval`: `undefined` before the first `start()`, `null`
once `stop()` has cleared a handle, or the handle `setInterval` returned (a truthy
value). -/
inductive Handle
  | undefined
  | null
  | timer (id : Nat)
deriving DecidableEq

/-- The timer state of a plugin instance and of the runtime: `interval` is
`this.interval`, `active` the handles of the timers of this instance that are
scheduled, `next` the next fresh handle, `cycles` the number of generation cycles
`start` has launched itself. -/
structure TimerState where
  interval : Handle
  active : List Nat
  next : Nat
  cycles : Nat
deriving DecidableEq

/-- A new plugin instance. -/
def TimerState.initial : TimerState := ⟨.undefined, [], 1, 0⟩

/-- The method `start()`: one cycle at once, then a new timer whose handle is stored. -/
def start (s : TimerState) : TimerState :=
  ⟨.timer s.next, s.next :: s.active, s.next + 1, s.cycles + 1⟩

/-- The method `stop()`: a stored handle is cleared and replaced by `null`. -/
def stop (s : TimerState) : TimerState :=
  match s.interval with
  | .timer id => ⟨.null, s.active.filter (fun t => t != id), s.next, s.cycles⟩
  | _ => s

/-- A call of one of the two lifecycle methods. -/
inductive Call
  | start
  | stop
deriving DecidableEq

/-- The state after a sequence of calls. -/
def run : List Call → TimerState → TimerState
  | [], s => s
  | .start :: rest, s => run rest (start s)
  | .stop :: rest, s => run rest (stop s)

/-! ## The regular expression: what a match is -/

theorem takeWhile_run (name rest : Str) (h : ∀ c ∈ name, isWordOrDot c = true) :
    (name ++ '}' :: rest).takeWhile isWordOrDot = name := by
  induction name with
  | nil => simp [List.takeWhile, isWordOrDot]
  | cons c t ih =>
    have hc : isWordOrDot c = true := h c (by simp)
    rw [List.cons_append, List.takeWhile_cons, hc, ih (fun x hx => h x (by simp [hx]))]
    rfl

theorem dropWhile_run (name rest : Str) (h : ∀ c ∈ name, isWordOrDot c = true) :
    (name ++ '}' :: rest).dropWhile isWordOrDot = '}' :: rest := by
  induction name with
  | nil => simp [List.dropWhile, isWordOrDot]
  | cons c t ih =>
    have hc : isWordOrDot c = true := h c (by simp)
    rw [List.cons_append, List.dropWhile_cons, hc, ih (fun x hx => h x (by simp [hx]))]
    rfl

theorem matchHere_placeholder (name rest : Str) (hne : name ≠ [])
    (h : ∀ c ∈ name, isWordOrDot c = true) :
    matchHere (placeholder name ++ rest) = some (name, rest) := by
  have e : placeholder name ++ rest = '$' :: '{' :: (name ++ '}' :: rest) := by
    simp [placeholder]
  rw [e]
  unfold matchHere
  simp only [takeWhile_run name rest h, dropWhile_run name rest h]
  cases name with
  | nil => exact absurd rfl hne
  | cons c t => rfl

theorem matchHere_some {s name rest : Str} (h : matchHere s = some (name, rest)) :
    s = placeholder name ++ rest ∧ name ≠ [] ∧ ∀ c ∈ name, isWordOrDot c = true := by
  unfold matchHere at h
  split at h
  · rename_i t
    split at h
    · exact absurd h (by simp)
    · rename_i n ns rest2 h1 h2
      simp only [Option.some.injEq, Prod.mk.injEq] at h
      obtain ⟨hn, hr⟩ := h
      subst hn; subst hr
      refine ⟨?_, by simp, ?_⟩
      · have := List.takeWhile_append_dropWhile isWordOrDot t
        rw [h1, h2] at this
        simp [placeholder, ← this]
      · intro c hc
        rw [← h1] at hc
        exact (List.mem_takeWhile_imp hc)
    · exact absurd h (by simp)
  · exact absurd h (by simp)

theorem hasPlaceholder_false_append {a b : Str} (h : hasPlaceholder (a ++ b) = false) :
    hasPlaceholder b = false := by
  induction a with
  | nil => simpa using h
  | cons c t ih =>
    simp only [List.cons_append, hasPlaceholder, Bool.or_eq_false_iff] at h
    exact ih h.2

theorem hasPlaceholder_false_iff (s : Str) :
    hasPlaceholder s = false ↔ ¬ ContainsPlaceholder s := by
  constructor
  · rintro h ⟨a, name, b, hne, hw, rfl⟩
    rw [List.append_assoc] at h
    have h2 := hasPlaceholder_false_append h
    have h3 := matchHere_placeholder name b hne hw
    have e : placeholder name ++ b = '$' :: ('{' :: (name ++ ['}']) ++ b) := by
      simp [placeholder]
    rw [e] at h2 h3
    simp only [hasPlaceholder, Bool.or_eq_false_iff] at h2
    rw [h3] at h2
    simp at h2
  · intro h
    induction s with
    | nil => rfl
    | cons c t ih =>
      simp only [hasPlaceholder, Bool.or_eq_false_iff]
      constructor
      · cases hm : matchHere (c :: t) with
        | none => rfl
        | some r =>
          obtain ⟨name, rest⟩ := r
          obtain ⟨e, hne, hw⟩ := matchHere_some hm
          exact absurd ⟨[], name, rest, hne, hw, by simpa using e⟩ h
      · apply ih
        rintro ⟨a, name, b, hne, hw, e⟩
        exact h ⟨c :: a, name, b, hne, hw, by simp [e]⟩

theorem matchAllAux_no_placeholder (n : Nat) (s : Str) (h : hasPlaceholder s = false) :
    matchAllAux n s = [] := by
  induction n generalizing s with
  | zero => rfl
  | succ n ih =>
    cases s with
    | nil => rfl
    | cons c t =>
      simp only [hasPlaceholder, Bool.or_eq_false_iff] at h
      have hm : matchHere (c :: t) = none := by
        cases hm : matchHere (c :: t) with
        | none => rfl
        | some r => rw [hm] at h; simp at h
      simp only [matchAllAux, hm]
      exact ih t h.2

theorem matchHere_rest_length {s name rest : Str} (h : matchHere s = some (name, rest)) :
    rest.length < s.length := by
  obtain ⟨e, -, -⟩ := matchHere_some h
  rw [e]
  simp [placeholder]
  omega

theorem matchAllAux_fuel : ∀ (n m : Nat) (s : Str), s.length ≤ n → s.length ≤ m →
    matchAllAux n s = matchAllAux m s := by
  intro n
  induction n with
  | zero =>
    intro m s hn _
    have : s = [] := List.length_eq_zero.mp (Nat.le_zero.mp hn)
    subst this
    cases m <;> rfl
  | succ n ih =>
    intro m s hn hm
    cases s with
    | nil => cases m <;> rfl
    | cons c t =>
      cases m with
      | zero => simp at hm
      | succ m =>
        cases hmh : matchHere (c :: t) with
        | none =>
          simp only [matchAllAux, hmh]
          exact ih m t (by simpa using hn) (by simpa using hm)
        | some r =>
          obtain ⟨name, rest⟩ := r
          have hl := matchHere_rest_length hmh
          simp only [matchAllAux, hmh]
          rw [ih m rest (by simp at hn hl; omega) (by simp at hm hl; omega)]

/-! ## Prompts without placeholders -/

/-- Claim C5. A prompt that contains no substring `${identifier}` (identifier = one or
more word characters or dots) is returned unchanged by `buildPrompt`, for every
content, without an exception, and the host query engine is not called (the number
of queries is 0). -/
theorem buildPrompt_no_placeholder (prompt : Str) (content : Option Record)
    (query : Nat → QueryOutcome) (h : ¬ ContainsPlaceholder prompt) :
    buildPrompt prompt content query = Except.ok (prompt, 0) := by
  have h1 := (hasPlaceholder_false_iff prompt).2 h
  simp only [buildPrompt, matchAll, matchAllAux_no_placeholder _ _ h1, buildPromptLoop]

theorem buildPrompt_no_placeholder_witness :
    ¬ ContainsPlaceholder "Summarise the news of $5 \x7bplans\x7d".toList ∧
      buildPrompt "Summarise the news of $5 \x7bplans\x7d".toList
          (some [("plans".toList, JSValue.string "x".toList)])
          (fun _ => QueryOutcome.returns JSValue.null)
        = Except.ok ("Summarise the news of $5 \x7bplans\x7d".toList, 0) :=
  ⟨(hasPlaceholder_false_iff _).1 (by decide),
   buildPrompt_no_placeholder _ _ _ ((hasPlaceholder_false_iff _).1 (by decide))⟩

/-! ## Field placeholders -/

/-- Claim C1, failing inputs. With the prompt `Hello ${name}`: for the field value
`0`, whose string is `0`, and for the field value `false` the code returns `Hello `;
for the field value `$&` it returns `Hello ${name}`; for the field value `a$$b` it
returns `Hello a$b`. -/
theorem buildPrompt_field_falsy_or_dollar :
    buildPrompt "Hello $\x7bname\x7d".toList
        (some [("name".toList, JSValue.number JSNumber.zero)])
        (fun _ => QueryOutcome.throws) = Except.ok ("Hello ".toList, 0) ∧
    toStr (JSValue.number JSNumber.zero) = Except.ok "0".toList ∧
    buildPrompt "Hello $\x7bname\x7d".toList (some [("name".toList, JSValue.bool false)])
        (fun _ => QueryOutcome.throws) = Except.ok ("Hello ".toList, 0) ∧
    buildPrompt "Hello $\x7bname\x7d".toList (some [("name".toList, JSValue.string "$&".toList)])
        (fun _ => QueryOutcome.throws) = Except.ok ("Hello $\x7bname\x7d".toList, 0) ∧
    buildPrompt "Hello $\x7bname\x7d".toList
        (some [("name".toList, JSValue.string "a$$b".toList)])
        (fun _ => QueryOutcome.throws) = Except.ok ("Hello a$b".toList, 0) :=
  ⟨rfl, rfl, rfl, rfl, rfl⟩

/-- Claim C4, failing inputs. Without content, the prompt `${a${x}} ${a}` has the two
placeholders `${x}` and `${a}`.  Removing `${x}` leaves `${a} ${a}`, and the
replacement made for the placeholder `${a}` removes the first of these two texts:
the result is ` ${a}`, in which the placeholder `${a}` of the prompt remains, and not
`${a} `, the prompt with its two placeholders removed.  With the content `{}`, the
placeholder `${constructor}` names no field of the content and its text remains. -/
theorem buildPrompt_absent_field_remains :
    matchAll "$\x7ba$\x7bx\x7d\x7d $\x7ba\x7d".toList
      = [(placeholder "x".toList, "x".toList), (placeholder "a".toList, "a".toList)] ∧
    buildPrompt "$\x7ba$\x7bx\x7d\x7d $\x7ba\x7d".toList none (fun _ => QueryOutcome.throws)
      = Except.ok (" $\x7ba\x7d".toList, 0) ∧
    buildPrompt "$\x7ba$\x7bx\x7d\x7d $\x7ba\x7d".toList none (fun _ => QueryOutcome.throws)
      ≠ Except.ok ("$\x7ba\x7d ".toList, 0) ∧
    ownProperty [] "constructor".toList = none ∧
    buildPrompt "Hi $\x7bconstructor\x7d!".toList (some []) (fun _ => QueryOutcome.throws)
      = Except.ok ("Hi $\x7bconstructor\x7d!".toList, 0) :=
  ⟨rfl, rfl, fun h => absurd (Except.ok.inj h) (by decide), rfl, rfl⟩

/-- Claim C10, failing input. With `a` bound to the text `${b}` and `b` to `X`, the
prompt `${a}${b}` is built into `X${b}`: the text inserted for `${a}` is the target
of the replacement made for `${b}`.  Replacing each placeholder at its own position
would give `${b}X`. -/
theorem buildPrompt_rewrites_inserted_text :
    matchAll "$\x7ba\x7d$\x7bb\x7d".toList
      = [(placeholder "a".toList, "a".toList), (placeholder "b".toList, "b".toList)] ∧
    buildPrompt "$\x7ba\x7d$\x7bb\x7d".toList
        (some [("a".toList, JSValue.string "$\x7bb\x7d".toList),
          ("b".toList, JSValue.string "X".toList)]) (fun _ => QueryOutcome.throws)
      = Except.ok ("X$\x7bb\x7d".toList, 0) ∧
    buildPrompt "$\x7ba\x7d$\x7bb\x7d".toList
        (some [("a".toList, JSValue.string "$\x7bb\x7d".toList),
          ("b".toList, JSValue.string "X".toList)]) (fun _ => QueryOutcome.throws)
      ≠ Except.ok ("$\x7bb\x7dX".toList, 0) :=
  ⟨rfl, rfl, fun h => absurd (Except.ok.inj h) (by decide)⟩

/-! ## The placeholder `${query.results}` -/

/-- Claim C2, failing input. When the response is `{data: {}}` (no rows), the prompt
`${query.results}` is built into the two characters `""`, not into the empty string;
with the rows `[{a: 1}]` it is built into `[{"a":1}]`. -/
theorem buildPrompt_query_results_no_rows :
    buildPrompt "$\x7bquery.results\x7d".toList none
        (fun _ => QueryOutcome.returns (JSValue.object [("data".toList, JSValue.object [])]))
      = Except.ok ([Char.ofNat 34, Char.ofNat 34], 1) ∧
    buildPrompt "$\x7bquery.results\x7d".toList none
        (fun _ => QueryOutcome.returns (JSValue.object [("data".toList, JSValue.object [])]))
      ≠ Except.ok ([], 1) ∧
    buildPrompt "$\x7bquery.results\x7d".toList none
        (fun _ => QueryOutcome.returns (JSValue.object [("data".toList,
          JSValue.object [("rows".toList,
            JSValue.array [JSValue.object
              [("a".toList, JSValue.number (JSNumber.finite false [1] 1))]])])]))
      = Except.ok ("[\x7b\"a\":1\x7d]".toList, 1) :=
  ⟨rfl, fun h => absurd (Except.ok.inj h) (by decide), rfl⟩

/-- Claim C3, failing input. When the host query throws, the prompt
`Rows: ${query.results}` is built into `Rows: undefined`: `buildPrompt` does not
throw, and the placeholder is replaced by the text `undefined`, not by the empty
string. -/
theorem buildPrompt_query_throws :
    buildPrompt "Rows: $\x7bquery.results\x7d".toList none (fun _ => QueryOutcome.throws)
      = Except.ok ("Rows: undefined".toList, 1) ∧
    buildPrompt "Rows: $\x7bquery.results\x7d".toList none (fun _ => QueryOutcome.throws)
      ≠ Except.ok ("Rows: ".toList, 1) :=
  ⟨rfl, fun h => absurd (Except.ok.inj h) (by decide)⟩

/-! ## The periodic generator -/

theorem toStr_queryResultsReplacement (o : QueryOutcome) :
    ∃ text, toStr (queryResultsReplacement o) = Except.ok text := by
  cases o with
  | throws => exact ⟨_, rfl⟩
  | returns response =>
    simp only [queryResultsReplacement]
    by_cases hc : (truthy response && truthy (getProp response "data".toList)) = true
    · rw [if_pos hc]
      cases jsonStringify
          (if truthy (getProp (getProp response "data".toList) "rows".toList) = true then
            getProp (getProp response "data".toList) "rows".toList
          else JSValue.string []) with
      | none => exact ⟨_, rfl⟩
      | some text => exact ⟨text, rfl⟩
    · rw [if_neg hc]
      exact ⟨_, rfl⟩

theorem resolve_none (query : Nat → QueryOutcome) (calls : Nat) (name : Str) :
    ∃ v text, (resolve none query calls name).1 = Looked.data v ∧
      toStr v = Except.ok text := by
  unfold resolve
  split
  · obtain ⟨text, ht⟩ := toStr_queryResultsReplacement (query calls)
    exact ⟨_, text, rfl, ht⟩
  · exact ⟨_, [], rfl, rfl⟩

theorem buildPromptLoop_none (query : Nat → QueryOutcome) :
    ∀ (ms : List (Str × Str)) (prompt : Str) (calls : Nat),
      ∃ built, buildPromptLoop none query ms prompt calls = Except.ok built
  | [], prompt, calls => ⟨(prompt, calls), rfl⟩
  | (fullMatch, name) :: rest, prompt, calls => by
    obtain ⟨v, text, hv, ht⟩ := resolve_none query calls name
    simp only [buildPromptLoop, hv, stringReplace, ht]
    exact buildPromptLoop_none query rest _ _

/-- Claim C7. A generation cycle builds its prompt without an exception, and when the
remote API answers the built prompt with a non-success status, `fetchFromOpenAI`
returns `undefined` without throwing, and `createStream` makes no call to the insert
API of the host and does not throw. -/
theorem createStream_non_success (p : Plugin) (h : Host) :
    ∃ parsedPrompt, buildPrompt p.prompt none h.query = Except.ok parsedPrompt ∧
      ∀ response, h.api (JSValue.string parsedPrompt.1) = FetchOutcome.resolves response →
        response.ok = false →
        fetchFromOpenAI p h (JSValue.string parsedPrompt.1) = Except.ok JSValue.undefined ∧
          (createStream p h).inserts = [] ∧ (createStream p h).thrown = none := by
  obtain ⟨built, hb⟩ := buildPromptLoop_none h.query (matchAll p.prompt) p.prompt 0
  refine ⟨built, hb, ?_⟩
  intro response hapi hok
  have e : fetchFromOpenAI p h (JSValue.string built.1) = Except.ok JSValue.undefined := by
    simp only [fetchFromOpenAI, hapi, hok, Bool.not_false, if_true]
  have hb' : buildPrompt p.prompt none h.query = Except.ok built := hb
  refine ⟨e, ?_, ?_⟩ <;> simp [createStream, hb', e, truthy]

theorem createStream_non_success_witness :
    ∃ parsedPrompt,
      buildPrompt "Write a haiku about $\x7btopic\x7d".toList none
        (fun _ => QueryOutcome.throws) = Except.ok parsedPrompt ∧
      parsedPrompt = ("Write a haiku about ".toList, 0) ∧
      fetchFromOpenAI ⟨"Write a haiku about $\x7btopic\x7d".toList, [], "yes".toList⟩
        ⟨fun _ => QueryOutcome.throws,
          fun _ => FetchOutcome.resolves ⟨false, some (JSValue.object [])⟩, fun _ => none⟩
        (JSValue.string parsedPrompt.1) = Except.ok JSValue.undefined ∧
      (createStream ⟨"Write a haiku about $\x7btopic\x7d".toList, [], "yes".toList⟩
        ⟨fun _ => QueryOutcome.throws,
          fun _ => FetchOutcome.resolves ⟨false, some (JSValue.object [])⟩,
          fun _ => none⟩).inserts = [] ∧
      (createStream ⟨"Write a haiku about $\x7btopic\x7d".toList, [], "yes".toList⟩
        ⟨fun _ => QueryOutcome.throws,
          fun _ => FetchOutcome.resolves ⟨false, some (JSValue.object [])⟩,
          fun _ => none⟩).thrown = none := by
  obtain ⟨built, hb, hrest⟩ :=
    createStream_non_success ⟨"Write a haiku about $\x7btopic\x7d".toList, [], "yes".toList⟩
      ⟨fun _ => QueryOutcome.throws,
        fun _ => FetchOutcome.resolves ⟨false, some (JSValue.object [])⟩, fun _ => none⟩
  have hv : built = ("Write a haiku about ".toList, 0) :=
    (Except.ok.inj (hb.symm.trans rfl))
  exact ⟨built, hb, hv, hrest ⟨false, some (JSValue.object [])⟩ rfl rfl⟩

/-! ## The update hook -/

theorem ownProperty_assign_same (o : Record) (key : Str) (value : JSValue) :
    ownProperty (assign o key value) key = some value := by
  induction o with
  | nil => simp [assign, ownProperty]
  | cons kv rest ih =>
    obtain ⟨k, v⟩ := kv
    by_cases hk : k = key
    · simp [assign, ownProperty, hk]
    · simp [assign, ownProperty, hk, ih]

theorem ownProperty_assign_other (o : Record) (key k' : Str) (value : JSValue)
    (h : k' ≠ key) : ownProperty (assign o key value) k' = ownProperty o k' := by
  induction o with
  | nil =>
    have : key ≠ k' := fun e => h e.symm
    simp [assign, ownProperty, this]
  | cons kv rest ih =>
    obtain ⟨k, v⟩ := kv
    by_cases hk : k = key
    · have : k ≠ k' := fun e => h (e ▸ hk)
      subst hk
      simp [assign, ownProperty, this]
    · by_cases hk2 : k = k'
      · subst hk2
        simp [assign, ownProperty, hk]
      · simp [assign, ownProperty, hk, hk2, ih]

theorem modify_append_singleton (f : HeapObject → HeapObject) (heap : List HeapObject)
    (o : HeapObject) : List.modify f heap.length (heap ++ [o]) = heap ++ [f o] := by
  induction heap with
  | nil => rfl
  | cons x t ih => simp [List.modify_succ_cons, ih]

theorem assignField_plain (fields : Record) (key : Str) (value : JSValue)
    (hf : key = protoKey → (ownProperty fields protoKey).isSome = true) :
    assignField (HeapObject.plain fields) key value
      = ⟨assign fields key value, none⟩ := by
  unfold assignField
  rw [if_neg]
  · rfl
  · rintro ⟨hk, hn, -⟩
    have := hf hk
    subst hk
    simp only [HeapObject.plain] at hn
    rw [Option.isNone_iff_eq_none] at hn
    rw [hn] at this
    exact absurd this (by simp)

/-- Claim C6, amended. For every record of the store and every result `r` of the
model client (`undefined` included), when the configured field is not `__proto__`,
or the record has an own property `__proto__`, the update hook returns a reference
to a new plain object whose configured field is `r` and whose other fields are those
of the record; every object of the store before the call, the record included, is
the same after the call. -/
theorem query_returns_copy (p : Plugin) (h : Host) (heap : List Record) (content : Nat)
    (parsedPrompt : Str × Nat) (r : JSValue) (hc : content < heap.length)
    (hb : buildPrompt p.prompt (some (heap.getD content [])) h.query
      = Except.ok parsedPrompt)
    (hr : fetchFromOpenAI p h (JSValue.string parsedPrompt.1) = Except.ok r)
    (hf : p.field = protoKey → (ownProperty (heap.getD content []) protoKey).isSome = true) :
    ∃ heap' ref o, query p h heap content = Except.ok (heap', ref) ∧ ref ≠ content ∧
      heap'[ref]? = some o ∧ o.proto = none ∧
      ownProperty o.fields p.field = some r ∧
      (∀ k, k ≠ p.field → ownProperty o.fields k = ownProperty (heap.getD content []) k) ∧
      heap'[content]? = some (HeapObject.plain (heap.getD content [])) ∧
      heap'.take heap.length = heap.map HeapObject.plain := by
  have hlen : (heap.map HeapObject.plain).length = heap.length := by simp
  have hq : query p h heap content = Except.ok
      (heap.map HeapObject.plain ++ [⟨assign (heap.getD content []) p.field r, none⟩],
        heap.length) := by
    simp only [query, hb, hr, setField]
    rw [← hlen, modify_append_singleton, assignField_plain _ _ _ hf, hlen]
  refine ⟨_, _, ⟨assign (heap.getD content []) p.field r, none⟩, hq, by omega, ?_, rfl,
    ownProperty_assign_same _ _ _, fun k hk => ownProperty_assign_other _ _ _ _ hk, ?_, ?_⟩
  · rw [← hlen]; simp
  · rw [List.getElem?_append_left (by simpa using hc)]
    simp [List.getD, List.getElem?_eq_getElem hc]
  · rw [← hlen]; simp

theorem query_returns_copy_witness :
    ∃ heap' ref o,
      query ⟨"Describe $\x7btitle\x7d".toList, "summary".toList, "no".toList⟩
        ⟨fun _ => QueryOutcome.throws,
          fun _ => FetchOutcome.resolves ⟨false, none⟩, fun _ => none⟩
        [[("title".toList, JSValue.string "Dune".toList),
          ("summary".toList, JSValue.string "old".toList)]] 0 = Except.ok (heap', ref) ∧
      ref ≠ 0 ∧ heap'[ref]? = some o ∧ o.proto = none ∧
      ownProperty o.fields "summary".toList = some JSValue.undefined ∧
      (∀ k, k ≠ "summary".toList →
        ownProperty o.fields k =
          ownProperty
            ([[("title".toList, JSValue.string "Dune".toList),
              ("summary".toList, JSValue.string "old".toList)]].getD 0 []) k) ∧
      heap'[0]? = some (HeapObject.plain
        ([[("title".toList, JSValue.string "Dune".toList),
          ("summary".toList, JSValue.string "old".toList)]].getD 0 [])) ∧
      heap'.take 1 =
        [[("title".toList, JSValue.string "Dune".toList),
          ("summary".toList, JSValue.string "old".toList)]].map HeapObject.plain :=
  query_returns_copy ⟨"Describe $\x7btitle\x7d".toList, "summary".toList, "no".toList⟩
    ⟨fun _ => QueryOutcome.throws,
      fun _ => FetchOutcome.resolves ⟨false, none⟩, fun _ => none⟩
    [[("title".toList, JSValue.string "Dune".toList),
      ("summary".toList, JSValue.string "old".toList)]] 0 ("Describe Dune".toList, 0)
    JSValue.undefined (by decide) rfl rfl (by decide)

/-- Claim C6, counterexample. With the configured field `__proto__`, the record
`{title: "Dune"}` and the model result `x`, the assignment reaches the setter of
`Object.prototype`, which ignores a string: the object returned is a plain copy of
the record, it has no own property `__proto__`, and reading `__proto__` on it
yields `Object.prototype`, not `x`. -/
theorem query_proto_field_not_set :
    fetchFromOpenAI ⟨"Describe $\x7btitle\x7d".toList, protoKey, "no".toList⟩
        ⟨fun _ => QueryOutcome.throws,
          fun _ => FetchOutcome.resolves ⟨true, some (JSValue.object [("choices".toList,
            JSValue.array [JSValue.object [("message".toList,
              JSValue.object [("content".toList, JSValue.string "x".toList)])]])])⟩,
          fun _ => none⟩
        (JSValue.string "Describe Dune".toList) = Except.ok (JSValue.string "x".toList) ∧
    query ⟨"Describe $\x7btitle\x7d".toList, protoKey, "no".toList⟩
        ⟨fun _ => QueryOutcome.throws,
          fun _ => FetchOutcome.resolves ⟨true, some (JSValue.object [("choices".toList,
            JSValue.array [JSValue.object [("message".toList,
              JSValue.object [("content".toList, JSValue.string "x".toList)])]])])⟩,
          fun _ => none⟩
        [[("title".toList, JSValue.string "Dune".toList)]] 0
      = Except.ok ([HeapObject.plain [("title".toList, JSValue.string "Dune".toList)],
          HeapObject.plain [("title".toList, JSValue.string "Dune".toList)]], 1) ∧
    ownProperty [("title".toList, JSValue.string "Dune".toList)] protoKey = none ∧
    getMember [("title".toList, JSValue.string "Dune".toList)] protoKey = Looked.prototype :=
  ⟨rfl, rfl, rfl, rfl⟩

/-! ## The chat endpoint -/

/-- Claim C8, amended. For a request without a body (`req.body` is `undefined` or
another falsy value) `chatSubmit` returns `{data: null}` and does not call the model
client.  For a request with a body, the model client is called once with the
`content` property of the body, which is `undefined` when the body lacks it, and its
result is returned as `data`. -/
theorem chatSubmit_body (p : Plugin) (h : Host) (body : JSValue) :
    (truthy body = false → chatSubmit p h body = ⟨Except.ok JSValue.null, []⟩) ∧
    (truthy body = true →
      chatSubmit p h body =
        ⟨fetchFromOpenAI p h (getProp body "content".toList),
          [getProp body "content".toList]⟩) := by
  constructor <;> intro ht <;> simp only [chatSubmit, ht] <;> rfl

theorem chatSubmit_body_witness :
    chatSubmit ⟨[], [], []⟩
        ⟨fun _ => QueryOutcome.throws, fun _ => FetchOutcome.rejects, fun _ => none⟩
        JSValue.undefined = ⟨Except.ok JSValue.null, []⟩ ∧
    chatSubmit ⟨[], [], []⟩
        ⟨fun _ => QueryOutcome.throws, fun _ => FetchOutcome.resolves ⟨false, none⟩,
          fun _ => none⟩
        (JSValue.object [("content".toList, JSValue.string "Hi".toList)])
      = ⟨fetchFromOpenAI ⟨[], [], []⟩
          ⟨fun _ => QueryOutcome.throws, fun _ => FetchOutcome.resolves ⟨false, none⟩,
            fun _ => none⟩
          (getProp (JSValue.object [("content".toList, JSValue.string "Hi".toList)])
            "content".toList),
        [getProp (JSValue.object [("content".toList, JSValue.string "Hi".toList)])
          "content".toList]⟩ :=
  ⟨(chatSubmit_body _ _ _).1 rfl, (chatSubmit_body _ _ _).2 rfl⟩

/-- Claim C8, counterexample. For a request whose body is `{}` (a body without the
field `content`), `chatSubmit` calls the model client, with the content `undefined`;
when the remote API answers with a non-success status the returned `data` is
`undefined`, so the result is not `{data: null}` without a call. -/
theorem chatSubmit_empty_body :
    (chatSubmit ⟨[], [], []⟩
        ⟨fun _ => QueryOutcome.throws, fun _ => FetchOutcome.resolves ⟨false, none⟩,
          fun _ => none⟩
        (JSValue.object [])).modelCalls.length = 1 ∧
    chatSubmit ⟨[], [], []⟩
        ⟨fun _ => QueryOutcome.throws, fun _ => FetchOutcome.resolves ⟨false, none⟩,
          fun _ => none⟩
        (JSValue.object [])
      = ⟨Except.ok JSValue.undefined, [JSValue.undefined]⟩ ∧
    chatSubmit ⟨[], [], []⟩
        ⟨fun _ => QueryOutcome.throws, fun _ => FetchOutcome.resolves ⟨false, none⟩,
          fun _ => none⟩
        (JSValue.object [])
      ≠ ⟨Except.ok JSValue.null, []⟩ := by
  refine ⟨rfl, rfl, ?_⟩
  intro e
  have := congrArg (fun c => c.modelCalls.length) e
  exact absurd this (by decide)

/-! ## The polling timer -/

/-- Claim C9, failing input. After `start()`, `start()`, `stop()` on a new instance
the stored handle is `null`, but the timer created by the first `start()` (handle 1)
is still active: the second `start()` overwrote its handle, and `stop()` cleared
only the timer of the second.  A second `stop()` changes nothing. -/
theorem stop_leaves_first_timer :
    run [Call.start, Call.start, Call.stop] TimerState.initial
      = ⟨Handle.null, [1], 3, 2⟩ ∧
    1 ∈ (run [Call.start, Call.start, Call.stop] TimerState.initial).active ∧
    run [Call.start, Call.start, Call.stop, Call.stop] TimerState.initial
      = run [Call.start, Call.start, Call.stop] TimerState.initial := by
  decide

end ChatGPTPlugin
